import Mathlib

/-
Verification development for the PRD conversation turn engine
(src/llm/conversation_flow.py and src/llm/fact_extractor.py).

Strings are modelled as lists of characters (Python str).  JSON values
are modelled by the inductive type JValue below; numeric literals are
kept as their source lexeme (the claims under study never compare
numeric values across distinct lexemes, and Python prints a canonical
integer or simple decimal lexeme unchanged).
-/

set_option maxRecDepth 10000

abbrev Str := List Char

/-- Coerce a Lean string literal to the character-list model. -/
def S (s : String) : Str := s.data

/-- Substring test: needle occurs contiguously in hay. -/
def hasSub (needle : Str) : Str → Bool
  | [] => needle.isEmpty
  | c :: rest => needle.isPrefixOf (c :: rest) || hasSub needle rest

/-- Whitespace characters recognised by Python str.strip and the regex class \s
(ASCII range; the inputs of interest are ASCII). -/
def pyIsSpace (c : Char) : Bool :=
  c = ' ' || c = '\t' || c = '\n' || c = '\x0d' || c = '\x0b' || c = '\x0c'

/-- Whitespace accepted between JSON tokens (RFC 8259, as in Python json). -/
def jsonWs (c : Char) : Bool :=
  c = ' ' || c = '\t' || c = '\n' || c = '\x0d'

def skipJsonWs (s : Str) : Str := s.dropWhile jsonWs

/-- Join a list of strings with a separator (Python sep.join(xs)). -/
def joinSep (sep : Str) : List Str → Str
  | [] => []
  | [x] => x
  | x :: y :: rest => x ++ sep ++ joinSep sep (y :: rest)

/-- Python str.strip(): drop whitespace from both ends. -/
def pyStrip (s : Str) : Str :=
  ((s.dropWhile pyIsSpace).reverse.dropWhile pyIsSpace).reverse

/-- JSON values as produced by json.loads.  Object fields are kept in textual
order; lookups take the last binding of a key, matching the dict produced by
Python (later duplicate keys overwrite earlier ones). -/
inductive JValue where
  | null : JValue
  | bool : Bool → JValue
  | num : Str → JValue
  | str : Str → JValue
  | arr : List JValue → JValue
  | obj : List (Str × JValue) → JValue

/-- Last binding of a key in an object field list (Python dict semantics for
duplicate JSON keys: the last occurrence wins). -/
def jlookupLast (o : List (Str × JValue)) (k : Str) : Option JValue :=
  match o with
  | [] => none
  | (k0, v0) :: rest =>
    match jlookupLast rest k with
    | some v => some v
    | none => if k0 = k then some v0 else none

/-- Python d.get(k, default) on a decoded JSON object. -/
def jgetD (o : List (Str × JValue)) (k : Str) (d : JValue) : JValue :=
  (jlookupLast o k).getD d

/-- Python truthiness of a decoded JSON value.  For numbers the value is falsy
when the mantissa has no nonzero digit (covers the canonical lexemes 0, -0,
0.0 used in practice). -/
def truthy : JValue → Bool
  | JValue.null => false
  | JValue.bool b => b
  | JValue.num lex =>
      (lex.takeWhile (fun c => c ≠ 'e' && c ≠ 'E')).any (fun c => c.isDigit && c ≠ '0')
  | JValue.str s => !s.isEmpty
  | JValue.arr l => !l.isEmpty
  | JValue.obj o => !o.isEmpty

/-- One character of a JSON number lexeme. -/
def numChar (c : Char) : Bool :=
  c.isDigit || c = '-' || c = '+' || c = '.' || c = 'e' || c = 'E'

def digits1 (s : Str) : Option Str :=
  let d := s.takeWhile Char.isDigit
  if d.isEmpty then none else some (s.dropWhile Char.isDigit)

/-- JSON number grammar: int part. -/
def chkInt (s : Str) : Option Str :=
  match s with
  | '0' :: r => some r
  | c :: _ => if c.isDigit then some (s.dropWhile Char.isDigit) else none
  | [] => none

def chkFrac (s : Str) : Option Str :=
  match s with
  | '.' :: r => digits1 r
  | _ => some s

def chkExp (s : Str) : Option Str :=
  match s with
  | c :: r =>
    if c = 'e' || c = 'E' then
      match r with
      | c2 :: r2 => if c2 = '+' || c2 = '-' then digits1 r2 else digits1 r
      | [] => none
    else some s
  | [] => some s

/-- Validity of a JSON number lexeme (RFC 8259 number grammar). -/
def validNumLexeme (s : Str) : Bool :=
  let s1 := match s with
            | '-' :: r => r
            | _ => s
  match chkInt s1 with
  | none => false
  | some r =>
    match chkFrac r with
    | none => false
    | some r2 =>
      match chkExp r2 with
      | none => false
      | some r3 => r3.isEmpty

/-- Value of one hexadecimal digit (0-9, a-f, A-F), by character code. -/
def hexVal (c : Char) : Option Nat :=
  let n := c.toNat
  if 48 ≤ n && n ≤ 57 then some (n - 48)
  else if 97 ≤ n && n ≤ 102 then some (n - 87)
  else if 65 ≤ n && n ≤ 70 then some (n - 55)
  else none

/-- Body of a JSON string after the opening quote: returns the decoded
characters and the remaining input after the closing quote. -/
def parseStringRest : Str → Option (Str × Str)
  | [] => none
  | c :: r =>
    if c = '"' then some ([], r)
    else if c = '\\' then
      match r with
      | [] => none
      | e :: r2 =>
        let simple : Option Char :=
          if e = '"' then some '"'
          else if e = '\\' then some '\\'
          else if e = '/' then some '/'
          else if e = 'b' then some '\x08'
          else if e = 'f' then some '\x0c'
          else if e = 'n' then some '\n'
          else if e = 'r' then some '\x0d'
          else if e = 't' then some '\t'
          else none
        match simple with
        | some ch =>
          match parseStringRest r2 with
          | some (tail, rest) => some (ch :: tail, rest)
          | none => none
        | none =>
          if e = 'u' then
            match r2 with
            | h1 :: h2 :: h3 :: h4 :: r3 =>
              match hexVal h1, hexVal h2, hexVal h3, hexVal h4 with
              | some a, some b, some c3, some d =>
                match parseStringRest r3 with
                | some (tail, rest) =>
                    some (Char.ofNat (((a * 16 + b) * 16 + c3) * 16 + d) :: tail, rest)
                | none => none
              | _, _, _, _ => none
            | _ => none
          else none
    else if c.toNat < 0x20 then none
    else
      match parseStringRest r with
      | some (tail, rest) => some (c :: tail, rest)
      | none => none

mutual

/-- Recursive-descent JSON value parse with fuel (fuel bounds nesting and
sequence length; jsonLoads supplies enough for its input). -/
def parseValue : Nat → Str → Option (JValue × Str)
  | 0, _ => none
  | Nat.succ fuel, s0 =>
    let s := skipJsonWs s0
    match s with
    | [] => none
    | '\x7b' :: r =>
      let r1 := skipJsonWs r
      (match r1 with
       | '\x7d' :: r2 => some (JValue.obj [], r2)
       | _ =>
         match parseMembers fuel r1 with
         | some (fields, rest) => some (JValue.obj fields, rest)
         | none => none)
    | '[' :: r =>
      let r1 := skipJsonWs r
      (match r1 with
       | ']' :: r2 => some (JValue.arr [], r2)
       | _ =>
         match parseElems fuel r1 with
         | some (elems, rest) => some (JValue.arr elems, rest)
         | none => none)
    | '"' :: r =>
      (match parseStringRest r with
       | some (cs, rest) => some (JValue.str cs, rest)
       | none => none)
    | c :: _ =>
      if (S "true").isPrefixOf s then some (JValue.bool true, s.drop 4)
      else if (S "false").isPrefixOf s then some (JValue.bool false, s.drop 5)
      else if (S "null").isPrefixOf s then some (JValue.null, s.drop 4)
      else if c.isDigit || c = '-' then
        let lex := s.takeWhile numChar
        if validNumLexeme lex then some (JValue.num lex, s.dropWhile numChar)
        else none
      else none

/-- Object members after the opening brace (first member must start here). -/
def parseMembers : Nat → Str → Option (List (Str × JValue) × Str)
  | 0, _ => none
  | Nat.succ fuel, s =>
    match s with
    | '"' :: r =>
      (match parseStringRest r with
       | some (k, r1) =>
         (match skipJsonWs r1 with
          | ':' :: r2 =>
            (match parseValue fuel r2 with
             | some (v, r3) =>
               (match skipJsonWs r3 with
                | ',' :: r4 =>
                  (match parseMembers fuel (skipJsonWs r4) with
                   | some (rest, r5) => some ((k, v) :: rest, r5)
                   | none => none)
                | '\x7d' :: r4 => some ([(k, v)], r4)
                | _ => none)
             | none => none)
          | _ => none)
       | none => none)
    | _ => none

/-- Array elements after the opening bracket (first element must start here). -/
def parseElems : Nat → Str → Option (List JValue × Str)
  | 0, _ => none
  | Nat.succ fuel, s =>
    match parseValue fuel s with
    | some (v, r) =>
      (match skipJsonWs r with
       | ',' :: r2 =>
         (match parseElems fuel r2 with
          | some (rest, r3) => some (v :: rest, r3)
          | none => none)
       | ']' :: r2 => some ([v], r2)
       | _ => none)
    | none => none

end

/-- Python json.loads: parse one JSON value, allow surrounding whitespace,
reject trailing data; none models a raised json.JSONDecodeError. -/
def jsonLoads (s : Str) : Option JValue :=
  match parseValue (s.length + 1) s with
  | some (v, rest) => if (skipJsonWs rest).isEmpty then some v else none
  | none => none

/-
Embedding of src/llm/fact_extractor.py.

The fence regex in the source is
  re.compile(r"< 3 backticks >(?:json)?\s*([\s\S]*?)< 3 backticks >", re.IGNORECASE)
used with .search: the leftmost position at which the whole pattern matches
wins, the optional tag is consumed greedily, \s* is consumed greedily, and
the lazy group ends at the first subsequent closing fence.  (Consuming the
tag and the whitespace greedily loses no match, because a closing fence
starts with a backtick, which is neither a tag letter nor whitespace.)
-/

def fenceMarker : Str := ['\x60', '\x60', '\x60']

/-- Case-insensitive optional json tag after the opening fence. -/
def dropJsonTag (s : Str) : Str :=
  if (s.take 4).map Char.toLower = S "json" then s.drop 4 else s

/-- Split at the first closing fence: returns the text before it and after it. -/
def splitAtFence : Str → Option (Str × Str)
  | [] => none
  | c :: rest =>
    if fenceMarker.isPrefixOf (c :: rest) then some ([], (c :: rest).drop 3)
    else
      match splitAtFence rest with
      | some (pre, post) => some (c :: pre, post)
      | none => none

/-- Attempt the fence pattern with the opening marker already consumed:
optional (case-insensitive) json tag, greedy whitespace, lazy interior up to
the first closing marker. -/
def fenceMatchAfterOpen (s : Str) : Option Str :=
  let s1 := (dropJsonTag s).dropWhile pyIsSpace
  (splitAtFence s1).map Prod.fst

/-- Leftmost full match of the fence pattern, as regex search does: try each
start position in turn, succeed at the first position where an opening
marker is followed (after tag and whitespace) by a closing marker. -/
def fenceSearch : Str → Option Str
  | [] => none
  | c :: rest =>
    if fenceMarker.isPrefixOf (c :: rest) then
      match fenceMatchAfterOpen ((c :: rest).drop 3) with
      | some interior => some interior
      | none => fenceSearch rest
    else fenceSearch rest

/-- fact_extractor._strip_fences: take the stripped interior of the first
fenced block when one exists, the original text otherwise.  (The defensive
isinstance branch for non-string input is outside this model: inputs here
are always strings.) -/
def strip_fences (s : Str) : Str :=
  match fenceSearch s with
  | some interior => pyStrip interior
  | none => s

/-- fact_extractor._extract_json_payload: strip fences, then
s2[s2.index(lbrace) : s2.rindex(rbrace)+1] when both braces occur, s2 when
either index call raises ValueError.  The slice is expressed as: drop up to
the first opening brace, then drop, from the right, up to the last closing
brace; when the last closing brace lies before the first opening brace the
Python slice is empty and so is this one. -/
def extract_json_payload (s : Str) : Str :=
  let s2 := strip_fences s
  if '\x7b' ∈ s2 ∧ '\x7d' ∈ s2 then
    ((s2.dropWhile (fun c => c ≠ '\x7b')).reverse.dropWhile (fun c => c ≠ '\x7d')).reverse
  else s2

/-- The validation gate of extract_facts on a parse outcome: the branch
  isinstance(parsed, dict) and isinstance(parsed.get("facts", []), list)
followed by parsed["facts"] succeeds exactly when the parsed value is an
object whose last "facts" binding is an array (a dict without the key passes
the isinstance test with the default but then raises KeyError on the
subscript, which the surrounding try absorbs into the repair path). -/
def validFactsShape : Option JValue → Option (List JValue)
  | some (JValue.obj o) =>
    match jlookupLast o (S "facts") with
    | some (JValue.arr l) => some l
    | _ => none
  | _ => none

/-- Result of extract_facts together with the temperatures of the generator
calls it issued, in order (the first call uses the temperature argument,
the repair call uses the literal 0.0 of the source). -/
structure ExtractTrace where
  facts : List JValue
  callTemps : List ℚ

/-- fact_extractor.extract_facts, as a function of the two possible generator
responses: resp1 is the first response, resp2 the repair response (consumed
only when the first attempt fails to validate).  Each response is pushed
through _extract_json_payload, json.loads and the facts-shape gate; on a
failed first attempt exactly one repair call is made and its outcome is the
final answer, with [] when it fails too. -/
def extract_facts (temperature : ℚ) (resp1 resp2 : Str) : ExtractTrace :=
  match validFactsShape (jsonLoads (extract_json_payload resp1)) with
  | some l => ⟨l, [temperature]⟩
  | none =>
    match validFactsShape (jsonLoads (extract_json_payload resp2)) with
    | some l => ⟨l, [temperature, 0]⟩
    | none => ⟨[], [temperature, 0]⟩

/-- The system prompt of fact_extractor._build_extractor_messages (the braces
and apostrophe are written as character escapes). -/
def extractSystemContent : Str :=
  S "You extract atomic, verifiable facts from the user\x27s latest input relevant to a PRD. " ++
  S "Return STRICT JSON with a single key \x27facts\x27 whose value is an array (max 12 items) of objects with keys: " ++
  S "text (<=140 chars), exact_span, sectionHint, fieldHint, attributes (only if needed: \x7btype,value,unit,comparator\x7d), confidence (0..1). " ++
  S "Respond with a SINGLE JSON object only â€” no prose, no code fences, no comments."

/-
Embedding of src/llm/conversation_flow.py (function main).

The generator collaborator get_llm_response_from_context is abstracted as an
oracle from call site to Except Unit Str: ok is a returned string, error
models a raised exception inside the call (for example a message list whose
items are not dicts).  main issues at most five calls per turn, identified
by Stage below; a raised exception anywhere inside the try body of main is
caught only by its outermost handler, which prints the error-and-traceback
object instead of the normal envelope.
-/

inductive Stage where
  | reply : Stage
  | factsExtract : Stage
  | factsRepair : Stage
  | planner : Stage
  | draft : Stage
deriving DecidableEq

/-- The validation gate of the inline facts step of conversation_flow:
  isinstance(parsed, dict) and isinstance(parsed.get("facts", []), list)
with facts_json = parsed (no subscript, so an object without the key passes
with the default and is kept whole). -/
def convConform : JValue → Bool
  | JValue.obj o =>
    match jlookupLast o (S "facts") with
    | some v => (match v with | JValue.arr _ => true | _ => false)
    | none => true
  | _ => false

/-- The facts_json value a conversation_flow turn ends up with, and whether
the repair call was issued, given the first response and the repair oracle;
error is a raised exception escaping the step (the repair call raising).
Note the first response is given to json.loads directly, with no fence
stripping or brace slicing, and that a first response that parses as JSON
but fails the shape gate keeps the initial default with no repair call. -/
def factsStepConv (factsRaw : Str) (repairResp : Except Unit Str) :
    Except Unit (JValue × Bool) :=
  match jsonLoads factsRaw with
  | some parsed =>
    if convConform parsed then Except.ok (parsed, false)
    else Except.ok (JValue.obj [(S "facts", JValue.arr [])], false)
  | none =>
    match repairResp with
    | Except.error e => Except.error e
    | Except.ok repaired =>
      match jsonLoads repaired with
      | some p2 =>
        if convConform p2 then Except.ok (p2, true)
        else Except.ok (JValue.obj [(S "facts", JValue.arr [])], true)
      | none => Except.ok (JValue.obj [(S "facts", JValue.arr [])], true)

/-- nf = structure.get("nextFocus", \x7b\x7d) or \x7b\x7d. -/
def nfFrom (st : List (Str × JValue)) : JValue :=
  let v := jgetD st (S "nextFocus") (JValue.obj [])
  if truthy v then v else JValue.obj []

/-- The deterministic fallback planner decision literal of conversation_flow
(line 118); building it evaluates nf.get("sectionIndex", 0) and
nf.get("fieldIndex", 0), which raises (error) when nf is not a dict. -/
def fallbackDecision (nf : JValue) : Except Unit JValue :=
  match nf with
  | JValue.obj nfo =>
    Except.ok (JValue.obj
      [ (S "action", JValue.str (S "gather")),
        (S "confidence", JValue.num (S "0.5")),
        (S "targets", JValue.arr
          [JValue.obj
            [ (S "sectionIndex", jgetD nfo (S "sectionIndex") (JValue.num (S "0"))),
              (S "fieldIndex", jgetD nfo (S "fieldIndex") (JValue.num (S "0"))) ]]),
        (S "facts", JValue.arr []) ])
  | _ => Except.error ()

/-- The planner value of a conversation_flow turn: the decoded JSON of the
raw planner response when json.loads succeeds (whatever its shape or action
value), the fallback decision otherwise; error is a raised exception while
building the fallback. -/
def plannerStep (st : List (Str × JValue)) (plannerRaw : Str) : Except Unit JValue :=
  match jsonLoads plannerRaw with
  | some v => Except.ok v
  | none => fallbackDecision (nfFrom st)

/-- The closed action vocabulary announced by the planner system prompt of
conversation_flow (line 92), with the documented seventh value none. -/
def plannerActionVocab : List Str :=
  [S "update_prd", S "gather", S "summarize", S "confirm_gate",
   S "examples", S "standards", S "none"]

/-- Rendering of a decoded JSON value inside an f-string (Python str()).
Composite values (list or dict) would render as their Python repr, which
this model does not cover; such inputs are outside every property proved
here, so they are mapped to a raised marker rather than a wrong string. -/
def pyFmt : JValue → Except Unit Str
  | JValue.null => Except.ok (S "None")
  | JValue.bool true => Except.ok (S "True")
  | JValue.bool false => Except.ok (S "False")
  | JValue.num lex => Except.ok lex
  | JValue.str s => Except.ok s
  | _ => Except.error ()

/-- Effectful map used to model Python iteration over a list where each
element may raise: the first raise aborts the whole loop. -/
def exceptMap (f : JValue → Except Unit Str) : List JValue → Except Unit (List Str)
  | [] => Except.ok []
  | x :: xs =>
    match f x with
    | Except.error e => Except.error e
    | Except.ok y =>
      match exceptMap f xs with
      | Except.error e => Except.error e
      | Except.ok ys => Except.ok (y :: ys)

/-- A string element of a joined iterable; a non-string raises TypeError. -/
def strElem : JValue → Except Unit Str
  | JValue.str t => Except.ok t
  | _ => Except.error ()

/-- One agenda entry in the guidance string (line 128 of the source):
f-string of s.get("name", "") followed by the bracketed comma join of
s.get("fields", []); iterating or joining a non-conforming value raises.
Joining a string iterates its characters, as in Python. -/
def sectionLine (s : JValue) : Except Unit Str :=
  match s with
  | JValue.obj so => do
    let name ← pyFmt (jgetD so (S "name") (JValue.str []))
    let fields ←
      match jgetD so (S "fields") (JValue.arr []) with
      | JValue.arr fs => exceptMap strElem fs
      | JValue.str t => Except.ok (t.map (fun c => [c]))
      | _ => Except.error ()
    Except.ok (name ++ S " [" ++ joinSep (S ", ") fields ++ S "]")
  | _ => Except.error ()

/-- structure_lines of conversation_flow (lines 126 to 136): the agenda
line, the next-focus line and the active-focus line, each present exactly
when its component is truthy. -/
def guidanceLines (st : List (Str × JValue)) : Except Unit (List Str) := do
  let agenda := jgetD st (S "agenda") (JValue.arr [])
  let nextFocus := jgetD st (S "nextFocus") (JValue.obj [])
  let focusStack := jgetD st (S "focusStack") (JValue.arr [])
  let l1 ←
    if truthy agenda then
      match agenda with
      | JValue.arr secs => do
        let parts ← exceptMap sectionLine secs
        Except.ok [S "Agenda: " ++ joinSep (S " | ") parts]
      | _ => Except.error ()
    else Except.ok []
  let l2 ←
    if truthy nextFocus then
      match nextFocus with
      | JValue.obj nfo => do
        let sec ← pyFmt (jgetD nfo (S "sectionIndex") (JValue.num (S "0")))
        let fld ← pyFmt (jgetD nfo (S "fieldIndex") (JValue.num (S "0")))
        Except.ok [S "Next focus index: section=" ++ sec ++ S ", field=" ++ fld ++
                   S ". Prioritize missing/weak fields."]
      | _ => Except.error ()
    else Except.ok []
  let l3 ←
    if truthy focusStack then
      match focusStack with
      | JValue.arr fs =>
        (match fs.getLast? with
         | some (JValue.obj topo) => do
           let ty ← pyFmt (jgetD topo (S "type") JValue.null)
           let tp ← pyFmt (jgetD topo (S "topic") JValue.null)
           let tl ← pyFmt (jgetD topo (S "turnsLeft") JValue.null)
           Except.ok [S "Active focus: " ++ ty ++ S " on " ++ tp ++
                      S " (turnsLeft=" ++ tl ++ S "). After focus, return to agenda."]
         | _ => Except.error ())
      | _ => Except.error ()
    else Except.ok []
  Except.ok (l1 ++ l2 ++ l3)

/-- A value accepted by Python float(): a number, a bool, or a numeric
string (modelled by the JSON number grammar after stripping spaces, which
covers every input exercised here). -/
def floatable : JValue → Bool
  | JValue.num _ => true
  | JValue.bool _ => true
  | JValue.str s => validNumLexeme (pyStrip s)
  | _ => false

/-- The success envelope printed by conversation_flow (line 154): reply,
prdDraft (None when no draft was generated), planner, and
facts_json.get("facts", []). -/
def envelope (reply : Str) (prd : Option Str) (planner : JValue) (factsJson : JValue) :
    JValue :=
  JValue.obj
    [ (S "reply", JValue.str reply),
      (S "prdDraft", match prd with | some d => JValue.str d | none => JValue.null),
      (S "planner", planner),
      (S "facts",
        match factsJson with
        | JValue.obj o => jgetD o (S "facts") (JValue.arr [])
        | _ => JValue.arr []) ]

/-- Outcome of one turn: the normal envelope with the list of generator
calls issued, or the fatal error object of the outermost handler (the
printed object is the error text and traceback pair; it carries none of the
success fields, which the constructor makes structural).  A stage appears in
the call list when the call was issued, whether or not it raised. -/
inductive TurnOutcome where
  | ok : JValue → List Stage → TurnOutcome
  | fatal : List Stage → TurnOutcome

/-- conversation_flow.main for one turn, as a function of the stdin text and
the generator oracle.  Nested matches follow the order of evaluation of the
source: top-level json.loads, the data.get calls and float(temps.get(..))
(line 19 to 29), the reply call (43), the structure.get calls of the
extraction prompt (61), the facts call (64) and inline facts step (71 to
85), nf and the planner call and step (97 to 118), the guidance lines (122
to 136), and the conditional draft call (147 to 152).  A raised exception
at any of these points reaches only the outermost handler.  The float()
conversions of the temperatures are checked for raising but their values
are not tracked (no property here depends on them). -/
def mainTurn (stdinText : Str) (gen : Stage → Except Unit Str) : TurnOutcome :=
  match jsonLoads stdinText with
  | none => TurnOutcome.fatal []
  | some (JValue.obj d) =>
    -- prev_prd_draft = data.get("prdDraft", "") feeds only the drafting
    -- prompt text in the source; it never reaches the output envelope.
    let shouldDraft := truthy (jgetD d (S "shouldDraft") (JValue.bool false))
    match jgetD d (S "temps") (JValue.obj []) with
    | JValue.obj temps =>
      if floatable (jgetD temps (S "reply") (JValue.num (S "0.7"))) &&
         floatable (jgetD temps (S "draft") (JValue.num (S "0.2"))) then
        match gen Stage.reply with
        | Except.error _ => TurnOutcome.fatal [Stage.reply]
        | Except.ok reply =>
          match jgetD d (S "structure") (JValue.obj []) with
          | JValue.obj st =>
            match gen Stage.factsExtract with
            | Except.error _ => TurnOutcome.fatal [Stage.reply, Stage.factsExtract]
            | Except.ok factsRaw =>
              match factsStepConv factsRaw (gen Stage.factsRepair) with
              | Except.error _ =>
                TurnOutcome.fatal [Stage.reply, Stage.factsExtract, Stage.factsRepair]
              | Except.ok (factsJson, repairCalled) =>
                let calls1 := [Stage.reply, Stage.factsExtract] ++
                  (if repairCalled then [Stage.factsRepair] else [])
                match gen Stage.planner with
                | Except.error _ => TurnOutcome.fatal (calls1 ++ [Stage.planner])
                | Except.ok plannerRaw =>
                  let calls2 := calls1 ++ [Stage.planner]
                  match plannerStep st plannerRaw with
                  | Except.error _ => TurnOutcome.fatal calls2
                  | Except.ok planner =>
                    match guidanceLines st with
                    | Except.error _ => TurnOutcome.fatal calls2
                    | Except.ok _ =>
                      if shouldDraft then
                        match gen Stage.draft with
                        | Except.error _ => TurnOutcome.fatal (calls2 ++ [Stage.draft])
                        | Except.ok draftText =>
                          TurnOutcome.ok
                            (envelope reply (some draftText) planner factsJson)
                            (calls2 ++ [Stage.draft])
                      else
                        TurnOutcome.ok (envelope reply none planner factsJson) calls2
          | _ => TurnOutcome.fatal [Stage.reply]
      else TurnOutcome.fatal []
    | _ => TurnOutcome.fatal []
  | some _ => TurnOutcome.fatal []

/- Concrete values used by witnesses and counterexamples. -/

/-- The empty facts object literal of the source. -/
def emptyFactsJ : JValue := JValue.obj [(S "facts", JValue.arr [])]

/-- The fallback planner decision with explicit target indices. -/
def mkFallback (si fi : JValue) : JValue :=
  JValue.obj
    [ (S "action", JValue.str (S "gather")),
      (S "confidence", JValue.num (S "0.5")),
      (S "targets", JValue.arr
        [JValue.obj [(S "sectionIndex", si), (S "fieldIndex", fi)]]),
      (S "facts", JValue.arr []) ]

def c1raw : Str := S "\x7b\"action\":\"frobnicate\",\"confidence\":0.9\x7d"

def c1obj : List (Str × JValue) :=
  [(S "action", JValue.str (S "frobnicate")), (S "confidence", JValue.num (S "0.9"))]

def c1wraw : Str := S "\x7b\"action\":\"summarize\"\x7d"

def c3raw : Str := S "\x7b\"facts\":[1,2,3,4,5,6,7,8,9,10,11,12,13]\x7d"

def c5rep : Str := S "\x7b\"facts\":[\x7b\"text\":\"ok\"\x7d]\x7d"

def c6r1 : Str := S "\x7b facts: [ \x7b text: \x27bad\x27 \x7d ] \x7d"

def c6r2 : Str :=
  S "\x7b\"facts\":[\x7b\"text\":\"ok\",\"exact_span\":\"ok\",\"sectionHint\":\"\",\"fieldHint\":\"\",\"attributes\":\x7b\x7d,\"confidence\":0.8\x7d]\x7d"

def c6fact : JValue :=
  JValue.obj
    [ (S "text", JValue.str (S "ok")),
      (S "exact_span", JValue.str (S "ok")),
      (S "sectionHint", JValue.str []),
      (S "fieldHint", JValue.str []),
      (S "attributes", JValue.obj []),
      (S "confidence", JValue.num (S "0.8")) ]

def c9text : Str := List.replicate 150 'a'

def c9r1 : Str :=
  S "\x7b\"facts\":[42,\x7b\"text\":\"" ++ c9text ++
  S "\",\"confidence\":7,\"exact_span\":\"zzz\"\x7d]\x7d"

def c9list : List JValue :=
  [ JValue.num (S "42"),
    JValue.obj
      [ (S "text", JValue.str c9text),
        (S "confidence", JValue.num (S "7")),
        (S "exact_span", JValue.str (S "zzz")) ] ]

/-- C1 counterexample: a planner output that parses as JSON with the
out-of-vocabulary action frobnicate is returned by the planner step exactly
as parsed, not replaced by the fallback decision: the returned action is
frobnicate, which is outside the closed vocabulary and differs from the
fallback action gather. -/
theorem c1_counterexample :
    plannerStep [] c1raw = Except.ok (JValue.obj c1obj) ∧
    jlookupLast c1obj (S "action") = some (JValue.str (S "frobnicate")) ∧
    S "frobnicate" ∉ plannerActionVocab ∧
    S "frobnicate" ≠ S "gather" := by
  refine ⟨by rfl, by rfl, by decide, by decide⟩

/-- C1 (amended): the planner step returns whatever value json.loads yields
for the raw planner output, with no vocabulary or shape check; the
deterministic fallback decision is used exactly when the raw output fails to
parse as JSON. -/
theorem c1_theorem (st : List (Str × JValue)) (raw : Str) :
    (∀ v, jsonLoads raw = some v → plannerStep st raw = Except.ok v) ∧
    (jsonLoads raw = none → plannerStep st raw = fallbackDecision (nfFrom st)) := by
  constructor
  · intro v h
    unfold plannerStep
    rw [h]
  · intro h
    unfold plannerStep
    rw [h]

/-- C1 witness: a parsed planner output is passed through unchanged. -/
theorem c1_theorem_witness :
    plannerStep [] c1wraw =
      Except.ok (JValue.obj [(S "action", JValue.str (S "summarize"))]) :=
  (c1_theorem [] c1wraw).1 _ (by rfl)

/-- C3 counterexample: a generator output carrying 13 facts is returned with
all 13 items; the extractor never truncates to 12. -/
theorem c3_counterexample :
    (extract_facts (1/10) c3raw []).facts.length = 13 ∧ ¬ (13 ≤ 12) := by
  exact ⟨by rfl, by decide⟩

/-- C3 (amended): the extraction request does instruct the generator to
return at most 12 facts (the system prompt contains the words max 12 items),
but the returned array is the parsed list unmodified, so its length is the
length of whatever list the generator produced, with no 12-item cap. -/
theorem c3_theorem :
    (hasSub (S "max 12 items") extractSystemContent = true) ∧
    (∀ (temp : ℚ) (r1 r2 : Str) (l : List JValue),
      validFactsShape (jsonLoads (extract_json_payload r1)) = some l →
      (extract_facts temp r1 r2).facts.length = l.length) := by
  constructor
  · rfl
  · intro temp r1 r2 l h
    unfold extract_facts
    rw [h]

/-- C3 witness: the 13-item output has length 13, the generator list length. -/
theorem c3_theorem_witness :
    (extract_facts (1/10) c3raw []).facts.length =
      (List.length [JValue.num (S "1"), JValue.num (S "2"), JValue.num (S "3"),
        JValue.num (S "4"), JValue.num (S "5"), JValue.num (S "6"),
        JValue.num (S "7"), JValue.num (S "8"), JValue.num (S "9"),
        JValue.num (S "10"), JValue.num (S "11"), JValue.num (S "12"),
        JValue.num (S "13")]) :=
  c3_theorem.2 (1/10) c3raw [] _ (by rfl)

/-- C5 counterexample: in the inline facts step of conversation_flow, the
first output [] parses as JSON but is not an object mapping facts to an
array, yet no repair call is issued (the repair flag is false) even though a
validating repair response was available; the step keeps the empty default. -/
theorem c5_counterexample :
    factsStepConv (S "[]") (Except.ok c5rep) = Except.ok (emptyFactsJ, false) ∧
    jsonLoads (S "[]") = some (JValue.arr []) ∧
    validFactsShape (jsonLoads (S "[]")) = none := by
  exact ⟨by rfl, by rfl, by rfl⟩

/-- C5 (amended): extract_facts issues exactly one repair call at
temperature 0 whenever the first response fails validation, including
responses that parse as JSON but are not an object mapping facts to an
array, and never makes more than 2 generator calls; the inline facts step of
conversation_flow issues its repair call exactly when the first response
fails to parse as JSON (a parsed but non-conforming response gets no
repair). -/
theorem c5_theorem :
    (∀ (temp : ℚ) (r1 r2 : Str),
      validFactsShape (jsonLoads (extract_json_payload r1)) = none →
      (extract_facts temp r1 r2).callTemps = [temp, 0]) ∧
    (∀ (temp : ℚ) (r1 r2 : Str), (extract_facts temp r1 r2).callTemps.length ≤ 2) ∧
    (∀ (raw : Str) (rep : Except Unit Str) (fj : JValue) (rc : Bool),
      factsStepConv raw rep = Except.ok (fj, rc) →
      (rc = true ↔ jsonLoads raw = none)) := by
  refine ⟨?_, ?_, ?_⟩
  · intro temp r1 r2 h
    unfold extract_facts
    rw [h]
    cases validFactsShape (jsonLoads (extract_json_payload r2)) <;> rfl
  · intro temp r1 r2
    unfold extract_facts
    cases validFactsShape (jsonLoads (extract_json_payload r1)) with
    | some l => simp
    | none =>
      cases validFactsShape (jsonLoads (extract_json_payload r2)) with
      | some l => simp
      | none => simp
  · intro raw rep fj rc h
    unfold factsStepConv at h
    split at h
    case h_1 parsed heq =>
      split at h
      · cases h
        simp [heq]
      · cases h
        simp [heq]
    case h_2 heq =>
      split at h
      · cases h
      case h_2 repaired heq2 =>
        split at h
        case h_1 p2 heq3 =>
          split at h
          · cases h
            simp [heq]
          · cases h
            simp [heq]
        case h_2 heq3 =>
          cases h
          simp [heq]

/-- C5 witness: a first response that fails validation leads to the trace
with the original temperature followed by the temperature-0 repair call. -/
theorem c5_theorem_witness :
    (extract_facts (1/10) (S "not json") (S "also not json")).callTemps =
      [1/10, 0] :=
  c5_theorem.1 (1/10) (S "not json") (S "also not json") (by rfl)

/-- C6: when the first response fails validation, extract_facts returns the
list parsed from the repaired response when it validates and the empty
default when it does not; the protocol is a total function of the two
responses, so no parse failure escapes it. -/
theorem c6_theorem (temp : ℚ) (r1 r2 : Str)
    (h : validFactsShape (jsonLoads (extract_json_payload r1)) = none) :
    (extract_facts temp r1 r2).facts =
      (validFactsShape (jsonLoads (extract_json_payload r2))).getD [] := by
  unfold extract_facts
  rw [h]
  cases validFactsShape (jsonLoads (extract_json_payload r2)) <;> rfl

/-- C6 witness: the malformed-then-repaired scenario of the specification
yields exactly the repaired single fact; the value parsed from the repaired
text is that one-fact list. -/
theorem c6_theorem_witness :
    (extract_facts (1/10) c6r1 c6r2).facts =
      (validFactsShape (jsonLoads (extract_json_payload c6r2))).getD [] ∧
    (validFactsShape (jsonLoads (extract_json_payload c6r2))).getD [] = [c6fact] :=
  ⟨c6_theorem (1/10) c6r1 c6r2 (by rfl), by rfl⟩

/-- C9: whenever the first (or, failing that, the repaired) response parses
to an object whose facts key maps to a list, extract_facts returns exactly
that list, with no per-item validation of any kind. -/
theorem c9_theorem :
    (∀ (temp : ℚ) (r1 r2 : Str) (l : List JValue),
      validFactsShape (jsonLoads (extract_json_payload r1)) = some l →
      (extract_facts temp r1 r2).facts = l) ∧
    (∀ (temp : ℚ) (r1 r2 : Str) (l : List JValue),
      validFactsShape (jsonLoads (extract_json_payload r1)) = none →
      validFactsShape (jsonLoads (extract_json_payload r2)) = some l →
      (extract_facts temp r1 r2).facts = l) := by
  constructor
  · intro temp r1 r2 l h
    unfold extract_facts
    rw [h]
  · intro temp r1 r2 l h1 h2
    unfold extract_facts
    rw [h1, h2]

/-- C9 witness: a facts list whose first element is a bare number, whose
second element has a 150-character text, a confidence of 7 and an exact_span
appearing nowhere in any input, is returned verbatim. -/
theorem c9_theorem_witness :
    (extract_facts (1/10) c9r1 []).facts = c9list ∧
    c9text.length = 150 ∧ 140 < 150 :=
  ⟨c9_theorem.1 (1/10) c9r1 [] c9list (by rfl), by rfl, by decide⟩

/-- C10: when the planner raw output fails to parse and nf is a dict, the
fallback decision is built without raising, using the looked-up section and
field indices with default 0; in particular with nextFocus absent from the
structure the single target is sectionIndex 0, fieldIndex 0. -/
theorem c10_theorem :
    (∀ (st : List (Str × JValue)) (raw : Str) (nfo : List (Str × JValue)),
      jsonLoads raw = none →
      nfFrom st = JValue.obj nfo →
      plannerStep st raw = Except.ok
        (mkFallback (jgetD nfo (S "sectionIndex") (JValue.num (S "0")))
                    (jgetD nfo (S "fieldIndex") (JValue.num (S "0"))))) ∧
    (∀ (st : List (Str × JValue)) (raw : Str),
      jsonLoads raw = none →
      jlookupLast st (S "nextFocus") = none →
      plannerStep st raw = Except.ok
        (mkFallback (JValue.num (S "0")) (JValue.num (S "0")))) := by
  constructor
  · intro st raw nfo hraw hnf
    unfold plannerStep
    rw [hraw, hnf]
    rfl
  · intro st raw hraw hnf
    unfold plannerStep
    rw [hraw]
    unfold nfFrom jgetD
    rw [hnf]
    rfl

/-- C10 witness: with unparseable planner output and an empty structure the
fallback is built with both indices 0 and no exception. -/
theorem c10_theorem_witness :
    plannerStep [] (S "garbage output") =
      Except.ok (mkFallback (JValue.num (S "0")) (JValue.num (S "0"))) :=
  c10_theorem.2 [] (S "garbage output") (by rfl) (by rfl)

/-- The prdDraft field of a success envelope. -/
def envPrdOf : JValue → Option JValue
  | JValue.obj fs => jlookupLast fs (S "prdDraft")
  | _ => none

/-- A well-formed turn input with prdDraft abc and shouldDraft false. -/
def turnStdin : Str :=
  S "\x7b\"prompt\":\"hi\",\"conversation\":[],\"llm\":\"m\",\"prdDraft\":\"abc\",\"structure\":\x7b\x7d,\"shouldDraft\":false\x7d"

/-- The decoded object of turnStdin. -/
def turnStdinObj : List (Str × JValue) :=
  [ (S "prompt", JValue.str (S "hi")),
    (S "conversation", JValue.arr []),
    (S "llm", JValue.str (S "m")),
    (S "prdDraft", JValue.str (S "abc")),
    (S "structure", JValue.obj []),
    (S "shouldDraft", JValue.bool false) ]

/-- A generator whose every call returns the text ok. -/
def okGen : Stage → Except Unit Str := fun _ => Except.ok (S "ok")

/-- A generator that raises inside the fact-extraction call only. -/
def factsRaiseGen : Stage → Except Unit Str :=
  fun s => match s with
    | Stage.factsExtract => Except.error ()
    | _ => Except.ok (S "ok")

/- Step lemmas for mainTurn, shared by the turn-level properties below. -/

lemma mt_decode (stdin : Str) (gen : Stage → Except Unit Str)
    (h1 : jsonLoads stdin = none) : mainTurn stdin gen = TurnOutcome.fatal [] := by
  unfold mainTurn
  rw [h1]

lemma mt_reply_raise (stdin : Str) (gen : Stage → Except Unit Str)
    (d temps : List (Str × JValue))
    (h1 : jsonLoads stdin = some (JValue.obj d))
    (ht : jgetD d (S "temps") (JValue.obj []) = JValue.obj temps)
    (hf : (floatable (jgetD temps (S "reply") (JValue.num (S "0.7"))) &&
           floatable (jgetD temps (S "draft") (JValue.num (S "0.2")))) = true)
    (hr : gen Stage.reply = Except.error ()) :
    mainTurn stdin gen = TurnOutcome.fatal [Stage.reply] := by
  unfold mainTurn
  rw [h1]
  simp only []
  rw [ht]
  simp only []
  rw [hf]
  simp only [if_true]
  rw [hr]

lemma mt_facts_raise (stdin : Str) (gen : Stage → Except Unit Str)
    (d temps st : List (Str × JValue)) (reply : Str)
    (h1 : jsonLoads stdin = some (JValue.obj d))
    (ht : jgetD d (S "temps") (JValue.obj []) = JValue.obj temps)
    (hf : (floatable (jgetD temps (S "reply") (JValue.num (S "0.7"))) &&
           floatable (jgetD temps (S "draft") (JValue.num (S "0.2")))) = true)
    (hr : gen Stage.reply = Except.ok reply)
    (hs : jgetD d (S "structure") (JValue.obj []) = JValue.obj st)
    (hx : gen Stage.factsExtract = Except.error ()) :
    mainTurn stdin gen = TurnOutcome.fatal [Stage.reply, Stage.factsExtract] := by
  unfold mainTurn
  rw [h1]
  simp only []
  rw [ht]
  simp only []
  rw [hf]
  simp only [if_true]
  rw [hr]
  simp only []
  rw [hs]
  simp only []
  rw [hx]

lemma mt_repair_raise (stdin : Str) (gen : Stage → Except Unit Str)
    (d temps st : List (Str × JValue)) (reply factsRaw : Str)
    (h1 : jsonLoads stdin = some (JValue.obj d))
    (ht : jgetD d (S "temps") (JValue.obj []) = JValue.obj temps)
    (hf : (floatable (jgetD temps (S "reply") (JValue.num (S "0.7"))) &&
           floatable (jgetD temps (S "draft") (JValue.num (S "0.2")))) = true)
    (hr : gen Stage.reply = Except.ok reply)
    (hs : jgetD d (S "structure") (JValue.obj []) = JValue.obj st)
    (hx : gen Stage.factsExtract = Except.ok factsRaw)
    (hfs : factsStepConv factsRaw (gen Stage.factsRepair) = Except.error ()) :
    mainTurn stdin gen =
      TurnOutcome.fatal [Stage.reply, Stage.factsExtract, Stage.factsRepair] := by
  unfold mainTurn
  rw [h1]
  simp only []
  rw [ht]
  simp only []
  rw [hf]
  simp only [if_true]
  rw [hr]
  simp only []
  rw [hs]
  simp only []
  rw [hx]
  simp only []
  rw [hfs]

lemma mt_planner_raise (stdin : Str) (gen : Stage → Except Unit Str)
    (d temps st : List (Str × JValue)) (reply factsRaw : Str)
    (fj : JValue) (rc : Bool)
    (h1 : jsonLoads stdin = some (JValue.obj d))
    (ht : jgetD d (S "temps") (JValue.obj []) = JValue.obj temps)
    (hf : (floatable (jgetD temps (S "reply") (JValue.num (S "0.7"))) &&
           floatable (jgetD temps (S "draft") (JValue.num (S "0.2")))) = true)
    (hr : gen Stage.reply = Except.ok reply)
    (hs : jgetD d (S "structure") (JValue.obj []) = JValue.obj st)
    (hx : gen Stage.factsExtract = Except.ok factsRaw)
    (hfs : factsStepConv factsRaw (gen Stage.factsRepair) = Except.ok (fj, rc))
    (hp : gen Stage.planner = Except.error ()) :
    mainTurn stdin gen =
      TurnOutcome.fatal (([Stage.reply, Stage.factsExtract] ++
        (if rc then [Stage.factsRepair] else [])) ++ [Stage.planner]) := by
  unfold mainTurn
  rw [h1]
  simp only []
  rw [ht]
  simp only []
  rw [hf]
  simp only [if_true]
  rw [hr]
  simp only []
  rw [hs]
  simp only []
  rw [hx]
  simp only []
  rw [hfs]
  simp only []
  rw [hp]

lemma mt_draft_raise (stdin : Str) (gen : Stage → Except Unit Str)
    (d temps st : List (Str × JValue)) (reply factsRaw plannerRaw : Str)
    (fj planner : JValue) (rc : Bool) (glines : List Str)
    (h1 : jsonLoads stdin = some (JValue.obj d))
    (hsd : truthy (jgetD d (S "shouldDraft") (JValue.bool false)) = true)
    (ht : jgetD d (S "temps") (JValue.obj []) = JValue.obj temps)
    (hf : (floatable (jgetD temps (S "reply") (JValue.num (S "0.7"))) &&
           floatable (jgetD temps (S "draft") (JValue.num (S "0.2")))) = true)
    (hr : gen Stage.reply = Except.ok reply)
    (hs : jgetD d (S "structure") (JValue.obj []) = JValue.obj st)
    (hx : gen Stage.factsExtract = Except.ok factsRaw)
    (hfs : factsStepConv factsRaw (gen Stage.factsRepair) = Except.ok (fj, rc))
    (hp : gen Stage.planner = Except.ok plannerRaw)
    (hps : plannerStep st plannerRaw = Except.ok planner)
    (hg : guidanceLines st = Except.ok glines)
    (hd : gen Stage.draft = Except.error ()) :
    mainTurn stdin gen =
      TurnOutcome.fatal ((([Stage.reply, Stage.factsExtract] ++
        (if rc then [Stage.factsRepair] else [])) ++ [Stage.planner]) ++ [Stage.draft]) := by
  unfold mainTurn
  rw [h1]
  simp only []
  rw [ht]
  simp only []
  rw [hf]
  simp only [if_true]
  rw [hr]
  simp only []
  rw [hs]
  simp only []
  rw [hx]
  simp only []
  rw [hfs]
  simp only []
  rw [hp]
  simp only []
  rw [hps]
  simp only []
  rw [hg]
  simp only []
  rw [hsd]
  simp only [if_true]
  rw [hd]

lemma mt_success_absorbed (stdin : Str) (gen : Stage → Except Unit Str)
    (d temps st nfo : List (Str × JValue)) (reply factsRaw repairRaw plannerRaw : Str)
    (glines : List Str)
    (h1 : jsonLoads stdin = some (JValue.obj d))
    (hsd : truthy (jgetD d (S "shouldDraft") (JValue.bool false)) = false)
    (ht : jgetD d (S "temps") (JValue.obj []) = JValue.obj temps)
    (hf : (floatable (jgetD temps (S "reply") (JValue.num (S "0.7"))) &&
           floatable (jgetD temps (S "draft") (JValue.num (S "0.2")))) = true)
    (hr : gen Stage.reply = Except.ok reply)
    (hs : jgetD d (S "structure") (JValue.obj []) = JValue.obj st)
    (hx : gen Stage.factsExtract = Except.ok factsRaw)
    (hpf1 : jsonLoads factsRaw = none)
    (hfr : gen Stage.factsRepair = Except.ok repairRaw)
    (hpf2 : jsonLoads repairRaw = none)
    (hp : gen Stage.planner = Except.ok plannerRaw)
    (hpp : jsonLoads plannerRaw = none)
    (hnf : nfFrom st = JValue.obj nfo)
    (hg : guidanceLines st = Except.ok glines) :
    mainTurn stdin gen =
      TurnOutcome.ok
        (envelope reply none
          (mkFallback (jgetD nfo (S "sectionIndex") (JValue.num (S "0")))
                      (jgetD nfo (S "fieldIndex") (JValue.num (S "0"))))
          emptyFactsJ)
        [Stage.reply, Stage.factsExtract, Stage.factsRepair, Stage.planner] := by
  have hfs : factsStepConv factsRaw (gen Stage.factsRepair) =
      Except.ok (emptyFactsJ, true) := by
    unfold factsStepConv
    rw [hpf1]
    simp only []
    rw [hfr]
    simp only []
    rw [hpf2]
    rfl
  have hps : plannerStep st plannerRaw = Except.ok
      (mkFallback (jgetD nfo (S "sectionIndex") (JValue.num (S "0")))
                  (jgetD nfo (S "fieldIndex") (JValue.num (S "0")))) := by
    unfold plannerStep
    rw [hpp]
    simp only []
    unfold fallbackDecision
    rw [hnf]
    rfl
  unfold mainTurn
  rw [h1]
  simp only []
  rw [ht]
  simp only []
  rw [hf]
  simp only [if_true]
  rw [hr]
  simp only []
  rw [hs]
  simp only []
  rw [hx]
  simp only []
  rw [hfs]
  simp only []
  rw [hp]
  simp only []
  rw [hps]
  simp only []
  rw [hg]
  simp only []
  rw [hsd]
  rfl

/-- C2 counterexample: for a turn whose input carries prdDraft abc and
shouldDraft false, with all generator calls returning normally, the success
envelope maps prdDraft to null, not to the input string abc. -/
theorem c2_counterexample :
    (match mainTurn turnStdin okGen with
     | TurnOutcome.ok env _ => envPrdOf env
     | _ => none) = some JValue.null ∧
    jlookupLast turnStdinObj (S "prdDraft") = some (JValue.str (S "abc")) ∧
    jsonLoads turnStdin = some (JValue.obj turnStdinObj) ∧
    some JValue.null ≠ some (JValue.str (S "abc")) := by
  exact ⟨by rfl, by rfl, by rfl, by simp⟩

/-- C2 (amended): whenever a turn whose decoded input has a falsy
shouldDraft completes with a success envelope, the draft-generation call was
never issued and the envelope maps prdDraft to null (the input draft string
is not echoed back; the caller keeps its own copy). -/
theorem c2_theorem (stdin : Str) (gen : Stage → Except Unit Str)
    (d : List (Str × JValue)) (env : JValue) (calls : List Stage)
    (h1 : jsonLoads stdin = some (JValue.obj d))
    (h2 : truthy (jgetD d (S "shouldDraft") (JValue.bool false)) = false)
    (hmain : mainTurn stdin gen = TurnOutcome.ok env calls) :
    Stage.draft ∉ calls ∧ envPrdOf env = some JValue.null := by
  unfold mainTurn at hmain
  rw [h1] at hmain
  simp only [] at hmain
  rw [h2] at hmain
  split at hmain
  next temps heqt =>
    split at hmain
    · split at hmain
      · exact TurnOutcome.noConfusion hmain
      next reply heqr =>
        split at hmain
        next st heqs =>
          split at hmain
          · exact TurnOutcome.noConfusion hmain
          next factsRaw heqf =>
            split at hmain
            · exact TurnOutcome.noConfusion hmain
            next factsJson repairCalled heqfs =>
              split at hmain
              · exact TurnOutcome.noConfusion hmain
              next plannerRaw heqp =>
                split at hmain
                · exact TurnOutcome.noConfusion hmain
                next planner heqps =>
                  split at hmain
                  · exact TurnOutcome.noConfusion hmain
                  next glines heqg =>
                    rw [if_neg (by simp [h2])] at hmain
                    injection hmain with henv hcalls
                    subst henv hcalls
                    constructor
                    · cases repairCalled <;> decide
                    · rfl
        · exact TurnOutcome.noConfusion hmain
    · exact TurnOutcome.noConfusion hmain
  · exact TurnOutcome.noConfusion hmain

/-- C2 witness: the concrete no-draft turn issues the four non-draft calls
only and its envelope prdDraft is null. -/
theorem c2_theorem_witness :
    Stage.draft ∉ [Stage.reply, Stage.factsExtract, Stage.factsRepair, Stage.planner] ∧
    envPrdOf (envelope (S "ok") none
      (mkFallback (JValue.num (S "0")) (JValue.num (S "0"))) emptyFactsJ) =
      some JValue.null :=
  c2_theorem turnStdin okGen turnStdinObj
    (envelope (S "ok") none
      (mkFallback (JValue.num (S "0")) (JValue.num (S "0"))) emptyFactsJ)
    [Stage.reply, Stage.factsExtract, Stage.factsRepair, Stage.planner]
    (by rfl) (by rfl) (by rfl)

/-- C4 counterexample: a raised exception inside the fact-extraction
generator call is not absorbed: the turn ends in the fatal error object, not
in a normal envelope with empty facts. -/
theorem c4_counterexample :
    mainTurn turnStdin factsRaiseGen =
      TurnOutcome.fatal [Stage.reply, Stage.factsExtract] ∧
    factsRaiseGen Stage.factsExtract = Except.error () := by
  exact ⟨by rfl, by rfl⟩

/-- C4 (amended): a failure of top-level input decoding, or a raised
exception inside any generator call (reply, fact extraction, fact repair,
planning, drafting), is fatal to the turn and yields the error object with
no success fields; malformed output text of the fact-extraction and planning
stages (including a failed repair) is absorbed locally: the turn still
returns a normal envelope carrying empty facts and the fallback decision. -/
theorem c4_theorem :
    (∀ (stdin : Str) (gen : Stage → Except Unit Str),
      jsonLoads stdin = none → mainTurn stdin gen = TurnOutcome.fatal []) ∧
    (∀ (stdin : Str) (gen : Stage → Except Unit Str)
       (d temps : List (Str × JValue)),
      jsonLoads stdin = some (JValue.obj d) →
      jgetD d (S "temps") (JValue.obj []) = JValue.obj temps →
      (floatable (jgetD temps (S "reply") (JValue.num (S "0.7"))) &&
       floatable (jgetD temps (S "draft") (JValue.num (S "0.2")))) = true →
      gen Stage.reply = Except.error () →
      mainTurn stdin gen = TurnOutcome.fatal [Stage.reply]) ∧
    (∀ (stdin : Str) (gen : Stage → Except Unit Str)
       (d temps st : List (Str × JValue)) (reply : Str),
      jsonLoads stdin = some (JValue.obj d) →
      jgetD d (S "temps") (JValue.obj []) = JValue.obj temps →
      (floatable (jgetD temps (S "reply") (JValue.num (S "0.7"))) &&
       floatable (jgetD temps (S "draft") (JValue.num (S "0.2")))) = true →
      gen Stage.reply = Except.ok reply →
      jgetD d (S "structure") (JValue.obj []) = JValue.obj st →
      gen Stage.factsExtract = Except.error () →
      mainTurn stdin gen = TurnOutcome.fatal [Stage.reply, Stage.factsExtract]) ∧
    (∀ (stdin : Str) (gen : Stage → Except Unit Str)
       (d temps st : List (Str × JValue)) (reply factsRaw : Str),
      jsonLoads stdin = some (JValue.obj d) →
      jgetD d (S "temps") (JValue.obj []) = JValue.obj temps →
      (floatable (jgetD temps (S "reply") (JValue.num (S "0.7"))) &&
       floatable (jgetD temps (S "draft") (JValue.num (S "0.2")))) = true →
      gen Stage.reply = Except.ok reply →
      jgetD d (S "structure") (JValue.obj []) = JValue.obj st →
      gen Stage.factsExtract = Except.ok factsRaw →
      factsStepConv factsRaw (gen Stage.factsRepair) = Except.error () →
      mainTurn stdin gen =
        TurnOutcome.fatal [Stage.reply, Stage.factsExtract, Stage.factsRepair]) ∧
    (∀ (stdin : Str) (gen : Stage → Except Unit Str)
       (d temps st : List (Str × JValue)) (reply factsRaw : Str)
       (fj : JValue) (rc : Bool),
      jsonLoads stdin = some (JValue.obj d) →
      jgetD d (S "temps") (JValue.obj []) = JValue.obj temps →
      (floatable (jgetD temps (S "reply") (JValue.num (S "0.7"))) &&
       floatable (jgetD temps (S "draft") (JValue.num (S "0.2")))) = true →
      gen Stage.reply = Except.ok reply →
      jgetD d (S "structure") (JValue.obj []) = JValue.obj st →
      gen Stage.factsExtract = Except.ok factsRaw →
      factsStepConv factsRaw (gen Stage.factsRepair) = Except.ok (fj, rc) →
      gen Stage.planner = Except.error () →
      mainTurn stdin gen =
        TurnOutcome.fatal (([Stage.reply, Stage.factsExtract] ++
          (if rc then [Stage.factsRepair] else [])) ++ [Stage.planner])) ∧
    (∀ (stdin : Str) (gen : Stage → Except Unit Str)
       (d temps st : List (Str × JValue)) (reply factsRaw plannerRaw : Str)
       (fj planner : JValue) (rc : Bool) (glines : List Str),
      jsonLoads stdin = some (JValue.obj d) →
      truthy (jgetD d (S "shouldDraft") (JValue.bool false)) = true →
      jgetD d (S "temps") (JValue.obj []) = JValue.obj temps →
      (floatable (jgetD temps (S "reply") (JValue.num (S "0.7"))) &&
       floatable (jgetD temps (S "draft") (JValue.num (S "0.2")))) = true →
      gen Stage.reply = Except.ok reply →
      jgetD d (S "structure") (JValue.obj []) = JValue.obj st →
      gen Stage.factsExtract = Except.ok factsRaw →
      factsStepConv factsRaw (gen Stage.factsRepair) = Except.ok (fj, rc) →
      gen Stage.planner = Except.ok plannerRaw →
      plannerStep st plannerRaw = Except.ok planner →
      guidanceLines st = Except.ok glines →
      gen Stage.draft = Except.error () →
      mainTurn stdin gen =
        TurnOutcome.fatal ((([Stage.reply, Stage.factsExtract] ++
          (if rc then [Stage.factsRepair] else [])) ++ [Stage.planner]) ++ [Stage.draft])) ∧
    (∀ (stdin : Str) (gen : Stage → Except Unit Str)
       (d temps st nfo : List (Str × JValue))
       (reply factsRaw repairRaw plannerRaw : Str) (glines : List Str),
      jsonLoads stdin = some (JValue.obj d) →
      truthy (jgetD d (S "shouldDraft") (JValue.bool false)) = false →
      jgetD d (S "temps") (JValue.obj []) = JValue.obj temps →
      (floatable (jgetD temps (S "reply") (JValue.num (S "0.7"))) &&
       floatable (jgetD temps (S "draft") (JValue.num (S "0.2")))) = true →
      gen Stage.reply = Except.ok reply →
      jgetD d (S "structure") (JValue.obj []) = JValue.obj st →
      gen Stage.factsExtract = Except.ok factsRaw →
      jsonLoads factsRaw = none →
      gen Stage.factsRepair = Except.ok repairRaw →
      jsonLoads repairRaw = none →
      gen Stage.planner = Except.ok plannerRaw →
      jsonLoads plannerRaw = none →
      nfFrom st = JValue.obj nfo →
      guidanceLines st = Except.ok glines →
      mainTurn stdin gen =
        TurnOutcome.ok
          (envelope reply none
            (mkFallback (jgetD nfo (S "sectionIndex") (JValue.num (S "0")))
                        (jgetD nfo (S "fieldIndex") (JValue.num (S "0"))))
            emptyFactsJ)
          [Stage.reply, Stage.factsExtract, Stage.factsRepair, Stage.planner]) := by
  refine ⟨mt_decode, mt_reply_raise, mt_facts_raise, mt_repair_raise,
    mt_planner_raise, mt_draft_raise, ?_⟩
  intro stdin gen d temps st nfo reply factsRaw repairRaw plannerRaw glines
    h1 hsd ht hf hr hs hx hpf1 hfr hpf2 hp hpp hnf hg
  exact mt_success_absorbed stdin gen d temps st nfo reply factsRaw repairRaw
    plannerRaw glines h1 hsd ht hf hr hs hx hpf1 hfr hpf2 hp hpp hnf hg

/-- C4 witness: on the concrete turn input with every generator call
returning unparseable text, the turn completes with the normal envelope,
empty facts and the fallback decision. -/
theorem c4_theorem_witness :
    mainTurn turnStdin okGen =
      TurnOutcome.ok
        (envelope (S "ok") none
          (mkFallback (JValue.num (S "0")) (JValue.num (S "0"))) emptyFactsJ)
        [Stage.reply, Stage.factsExtract, Stage.factsRepair, Stage.planner] :=
  c4_theorem.2.2.2.2.2.2 turnStdin okGen turnStdinObj [] [] [] (S "ok") (S "ok")
    (S "ok") (S "ok") [] (by rfl) (by rfl) (by rfl) (by rfl) (by rfl) (by rfl)
    (by rfl) (by rfl) (by rfl) (by rfl) (by rfl) (by rfl) (by rfl) (by rfl)

lemma dropWhile_append_all {P : Char → Bool} {a : Str} (s : Str)
    (h : ∀ c ∈ a, P c = true) : (a ++ s).dropWhile P = s.dropWhile P := by
  induction a with
  | nil => rfl
  | cons c t ih =>
    have hc : P c = true := h c (List.mem_cons_self c t)
    simp only [List.cons_append, List.dropWhile_cons, hc, if_true]
    exact ih (fun x hx => h x (List.mem_cons_of_mem c hx))

lemma dropWhile_cons_neg {P : Char → Bool} {c : Char} (s : Str)
    (h : P c = false) : (c :: s).dropWhile P = c :: s := by
  simp [List.dropWhile_cons, h]

lemma isPrefixOf_append_self (l y : Str) : l.isPrefixOf (l ++ y) = true := by
  induction l with
  | nil => simp
  | cons c t ih => simp [List.isPrefixOf_cons₂, ih]

lemma isPrefixOf_cons_ne {a b : Char} (as bs : Str) (h : a ≠ b) :
    (a :: as).isPrefixOf (b :: bs) = false := by
  simp [List.isPrefixOf_cons₂, h]

lemma fenceMarker_no_match_at {c : Char} (s : Str) (h : c ≠ '\x60') :
    fenceMarker.isPrefixOf (c :: s) = false := by
  show (('\x60' : Char) :: ['\x60', '\x60']).isPrefixOf (c :: s) = false
  exact isPrefixOf_cons_ne _ _ (fun he => h he.symm)

lemma splitAtFence_append (x y : Str) (hx : ∀ c ∈ x, c ≠ '\x60') :
    splitAtFence (x ++ (fenceMarker ++ y)) = some (x, y) := by
  induction x with
  | nil =>
    show splitAtFence ('\x60' :: ('\x60' :: '\x60' :: y)) = some ([], y)
    unfold splitAtFence
    rw [if_pos]
    · rfl
    · exact isPrefixOf_append_self fenceMarker y
  | cons c t ih =>
    have hc : c ≠ '\x60' := hx c (List.mem_cons_self c t)
    show splitAtFence (c :: (t ++ (fenceMarker ++ y))) = some (c :: t, y)
    unfold splitAtFence
    rw [fenceMarker_no_match_at _ hc]
    simp only [Bool.false_eq_true, if_false]
    rw [ih (fun d hd => hx d (List.mem_cons_of_mem c hd))]

lemma fenceSearch_skip (a rest : Str) (ha : ∀ c ∈ a, c ≠ '\x60') :
    fenceSearch (a ++ rest) = fenceSearch rest := by
  induction a with
  | nil => rfl
  | cons c t ih =>
    have hc : c ≠ '\x60' := ha c (List.mem_cons_self c t)
    show fenceSearch (c :: (t ++ rest)) = fenceSearch rest
    conv_lhs => unfold fenceSearch
    rw [fenceMarker_no_match_at _ hc]
    simp only [Bool.false_eq_true, if_false]
    exact ih (fun d hd => ha d (List.mem_cons_of_mem c hd))

lemma pyIsSpace_cases {c : Char} (h : pyIsSpace c = true) :
    c = ' ' ∨ c = '\t' ∨ c = '\n' ∨ c = '\x0d' ∨ c = '\x0b' ∨ c = '\x0c' := by
  simp only [pyIsSpace, Bool.or_eq_true, decide_eq_true_eq] at h
  tauto

lemma pyIsSpace_ne_tick {c : Char} (h : pyIsSpace c = true) : c ≠ '\x60' := by
  rcases pyIsSpace_cases h with h1 | h1 | h1 | h1 | h1 | h1 <;> subst h1 <;> decide

lemma pyIsSpace_toLower_ne_j {c : Char} (h : pyIsSpace c = true) :
    Char.toLower c ≠ 'j' := by
  rcases pyIsSpace_cases h with h1 | h1 | h1 | h1 | h1 | h1 <;> subst h1 <;> decide

lemma dropJsonTag_json (rest : Str) : dropJsonTag (S "json" ++ rest) = rest := by
  rfl

lemma dropJsonTag_head_ne {c : Char} (s : Str) (h : Char.toLower c ≠ 'j') :
    dropJsonTag (c :: s) = c :: s := by
  unfold dropJsonTag
  rw [if_neg]
  intro he
  have : Char.toLower c = 'j' := by
    have h4 : ((c :: s).take 4).map Char.toLower = S "json" := he
    cases s with
    | nil =>
      rw [show S "json" = ['j', 's', 'o', 'n'] from rfl] at h4
      exact absurd h4 (by simp)
    | cons b t =>
      have h5 : Char.toLower c :: ((b :: t).take 3).map Char.toLower = S "json" := h4
      exact List.head_eq_of_cons_eq h5
  exact h this

lemma dropJsonTag_brace (mid : Str) : dropJsonTag ('\x7b' :: mid) = '\x7b' :: mid :=
  dropJsonTag_head_ne mid (by decide)

lemma fenceSearch_none (s : Str) (h : ∀ c ∈ s, c ≠ '\x60') :
    fenceSearch s = none := by
  induction s with
  | nil => rfl
  | cons c t ih =>
    have hc : c ≠ '\x60' := h c (List.mem_cons_self c t)
    conv_lhs => unfold fenceSearch
    rw [fenceMarker_no_match_at _ hc]
    simp only [Bool.false_eq_true, if_false]
    exact ih (fun d hd => h d (List.mem_cons_of_mem c hd))

lemma pyIsSpace_brace : pyIsSpace '\x7b' = false := by decide

lemma pyStrip_braced (mid w2 : Str) (hw2 : ∀ c ∈ w2, pyIsSpace c = true) :
    pyStrip (('\x7b' :: (mid ++ ['\x7d'])) ++ w2) = '\x7b' :: (mid ++ ['\x7d']) := by
  unfold pyStrip
  have h1 : (('\x7b' :: (mid ++ ['\x7d'])) ++ w2).dropWhile pyIsSpace =
      ('\x7b' :: (mid ++ ['\x7d'])) ++ w2 := by
    rw [List.cons_append]
    exact dropWhile_cons_neg _ pyIsSpace_brace
  rw [h1]
  have h2 : (('\x7b' :: (mid ++ ['\x7d'])) ++ w2).reverse =
      w2.reverse ++ ('\x7d' :: (mid.reverse ++ ['\x7b'])) := by
    simp [List.reverse_append, List.reverse_cons, List.append_assoc]
  rw [h2]
  rw [dropWhile_append_all _ (fun c hc => hw2 c (List.mem_reverse.mp hc))]
  rw [dropWhile_cons_neg _ (by decide)]
  simp [List.reverse_cons, List.reverse_append]

lemma fenceMatchAfterOpen_shape (tag w1 mid w2 b : Str)
    (htag : tag = [] ∨ tag = S "json")
    (hw1 : ∀ c ∈ w1, pyIsSpace c = true)
    (hw2 : ∀ c ∈ w2, pyIsSpace c = true)
    (hmid : '\x60' ∉ mid) :
    fenceMatchAfterOpen
      (tag ++ (w1 ++ ((('\x7b' :: (mid ++ ['\x7d'])) ++ w2) ++ (fenceMarker ++ b)))) =
      some (('\x7b' :: (mid ++ ['\x7d'])) ++ w2) := by
  have hdropTag :
      dropJsonTag
        (tag ++ (w1 ++ ((('\x7b' :: (mid ++ ['\x7d'])) ++ w2) ++ (fenceMarker ++ b)))) =
      w1 ++ ((('\x7b' :: (mid ++ ['\x7d'])) ++ w2) ++ (fenceMarker ++ b)) := by
    rcases htag with h | h
    · subst h
      rw [List.nil_append]
      cases w1 with
      | nil =>
        rw [List.nil_append]
        rw [List.cons_append, List.cons_append]
        exact dropJsonTag_brace _
      | cons c t =>
        have hc := pyIsSpace_toLower_ne_j (hw1 c (List.mem_cons_self c t))
        rw [List.cons_append]
        exact dropJsonTag_head_ne _ hc
    · subst h
      exact dropJsonTag_json _
  unfold fenceMatchAfterOpen
  rw [hdropTag]
  have hdropWs :
      (w1 ++ ((('\x7b' :: (mid ++ ['\x7d'])) ++ w2) ++ (fenceMarker ++ b))).dropWhile
        pyIsSpace =
      (('\x7b' :: (mid ++ ['\x7d'])) ++ w2) ++ (fenceMarker ++ b) := by
    rw [dropWhile_append_all _ hw1]
    rw [List.cons_append, List.cons_append]
    exact dropWhile_cons_neg _ pyIsSpace_brace
  rw [hdropWs]
  have hx : ∀ c ∈ ('\x7b' :: (mid ++ ['\x7d'])) ++ w2, c ≠ '\x60' := by
    intro c hc
    rcases List.mem_append.mp hc with h1 | h1
    · rcases List.mem_cons.mp h1 with h2 | h2
      · subst h2; decide
      · rcases List.mem_append.mp h2 with h3 | h3
        · exact fun he => hmid (he ▸ h3)
        · rcases List.mem_singleton.mp h3 with rfl; decide
    · exact pyIsSpace_ne_tick (hw2 c h1)
  simp only []
  rw [splitAtFence_append _ _ hx]
  rfl

lemma fenceSearch_open (R i : Str) (h : fenceMatchAfterOpen R = some i) :
    fenceSearch ('\x60' :: ('\x60' :: ('\x60' :: R))) = some i := by
  conv_lhs => unfold fenceSearch
  rw [show List.isPrefixOf fenceMarker ('\x60' :: ('\x60' :: ('\x60' :: R))) = true from
    isPrefixOf_append_self fenceMarker R]
  simp only [if_true]
  rw [show List.drop 3 ('\x60' :: ('\x60' :: ('\x60' :: R))) = R from rfl]
  rw [h]

lemma strip_fences_fenced (a tag w1 mid w2 b : Str)
    (ha : ∀ c ∈ a, c ≠ '\x60')
    (htag : tag = [] ∨ tag = S "json")
    (hw1 : ∀ c ∈ w1, pyIsSpace c = true)
    (hw2 : ∀ c ∈ w2, pyIsSpace c = true)
    (hmid : '\x60' ∉ mid) :
    strip_fences
      (a ++ (fenceMarker ++
        (tag ++ (w1 ++ ((('\x7b' :: (mid ++ ['\x7d'])) ++ w2) ++ (fenceMarker ++ b)))))) =
    '\x7b' :: (mid ++ ['\x7d']) := by
  unfold strip_fences
  rw [fenceSearch_skip a _ ha]
  rw [show (fenceMarker ++
      (tag ++ (w1 ++ ((('\x7b' :: (mid ++ ['\x7d'])) ++ w2) ++ (fenceMarker ++ b)))) : Str) =
      '\x60' :: ('\x60' :: ('\x60' ::
        (tag ++ (w1 ++ ((('\x7b' :: (mid ++ ['\x7d'])) ++ w2) ++ (fenceMarker ++ b))))))
      from rfl]
  rw [fenceSearch_open _ _ (fenceMatchAfterOpen_shape tag w1 mid w2 b htag hw1 hw2 hmid)]
  exact pyStrip_braced mid w2 hw2

lemma braceSlice_braced (mid : Str) :
    (((('\x7b' :: (mid ++ ['\x7d'])).dropWhile (fun c => c ≠ '\x7b')).reverse.dropWhile
      (fun c => c ≠ '\x7d')).reverse) = '\x7b' :: (mid ++ ['\x7d']) := by
  rw [dropWhile_cons_neg _ (by simp)]
  have h2 : ('\x7b' :: (mid ++ ['\x7d'])).reverse = '\x7d' :: (mid.reverse ++ ['\x7b']) := by
    simp [List.reverse_cons, List.reverse_append]
  rw [h2]
  rw [dropWhile_cons_neg _ (by simp)]
  simp [List.reverse_cons, List.reverse_append]

lemma payload_of_strip (s mid : Str)
    (hstrip : strip_fences s = '\x7b' :: (mid ++ ['\x7d'])) :
    extract_json_payload s = '\x7b' :: (mid ++ ['\x7d']) := by
  unfold extract_json_payload
  rw [hstrip]
  rw [if_pos ⟨List.mem_cons_self _ _,
    List.mem_cons_of_mem _ (List.mem_append.mpr (Or.inr (List.mem_singleton.mpr rfl)))⟩]
  exact braceSlice_braced mid

lemma strip_fences_no_tick (s : Str) (h : ∀ c ∈ s, c ≠ '\x60') :
    strip_fences s = s := by
  unfold strip_fences
  rw [fenceSearch_none s h]

lemma payload_comment (a mid b : Str)
    (ha : ∀ c ∈ a, c ≠ '\x60' ∧ c ≠ '\x7b' ∧ c ≠ '\x7d')
    (hb : ∀ c ∈ b, c ≠ '\x60' ∧ c ≠ '\x7b' ∧ c ≠ '\x7d')
    (hmid : '\x60' ∉ mid) :
    extract_json_payload (a ++ (('\x7b' :: (mid ++ ['\x7d'])) ++ b)) =
      '\x7b' :: (mid ++ ['\x7d']) := by
  have hticks : ∀ c ∈ a ++ (('\x7b' :: (mid ++ ['\x7d'])) ++ b), c ≠ '\x60' := by
    intro c hc
    rcases List.mem_append.mp hc with h1 | h1
    · exact (ha c h1).1
    · rcases List.mem_append.mp h1 with h2 | h2
      · rcases List.mem_cons.mp h2 with h3 | h3
        · subst h3; decide
        · rcases List.mem_append.mp h3 with h4 | h4
          · exact fun he => hmid (he ▸ h4)
          · rcases List.mem_singleton.mp h4 with rfl; decide
      · exact (hb c h2).1
  unfold extract_json_payload
  rw [strip_fences_no_tick _ hticks]
  rw [if_pos ⟨List.mem_append.mpr (Or.inr (List.mem_append.mpr (Or.inl
        (List.mem_cons_self _ _)))),
      List.mem_append.mpr (Or.inr (List.mem_append.mpr (Or.inl
        (List.mem_cons_of_mem _ (List.mem_append.mpr (Or.inr
          (List.mem_singleton.mpr rfl)))))))⟩]
  rw [dropWhile_append_all _ (fun c hc => by
    simp only [decide_eq_true_eq]
    exact (ha c hc).2.1)]
  rw [show (('\x7b' :: (mid ++ ['\x7d'])) ++ b : Str) = '\x7b' :: ((mid ++ ['\x7d']) ++ b)
    from List.cons_append _ _ _]
  rw [dropWhile_cons_neg _ (by simp)]
  have h2 : ('\x7b' :: ((mid ++ ['\x7d']) ++ b)).reverse =
      b.reverse ++ ('\x7d' :: (mid.reverse ++ ['\x7b'])) := by
    simp [List.reverse_cons, List.reverse_append, List.append_assoc]
  rw [h2]
  rw [dropWhile_append_all _ (fun c hc => by
    simp only [decide_eq_true_eq]
    exact (hb c (List.mem_reverse.mp hc)).2.2)]
  rw [dropWhile_cons_neg _ (by simp)]
  simp [List.reverse_cons, List.reverse_append]

/-- C7: fence and comment invariance of the structured-extraction payload.
For a brace-delimited payload (no backticks inside), wrapped either in a
triple-backtick fence (optionally tagged json, with any surrounding
whitespace inside the fence) between arbitrary backtick-free and brace-free
commentary, or placed bare between such commentary, _extract_json_payload
recovers exactly the payload, so json.loads yields the same parsed value as
for the bare payload alone. -/
theorem c7_theorem (a b w1 w2 mid tag : Str)
    (ha : ∀ c ∈ a, c ≠ '\x60' ∧ c ≠ '\x7b' ∧ c ≠ '\x7d')
    (hb : ∀ c ∈ b, c ≠ '\x60' ∧ c ≠ '\x7b' ∧ c ≠ '\x7d')
    (hmid : '\x60' ∉ mid)
    (hw1 : ∀ c ∈ w1, pyIsSpace c = true)
    (hw2 : ∀ c ∈ w2, pyIsSpace c = true)
    (htag : tag = [] ∨ tag = S "json") :
    extract_json_payload
      (a ++ (fenceMarker ++ (tag ++ (w1 ++
        ((('\x7b' :: (mid ++ ['\x7d'])) ++ w2) ++ (fenceMarker ++ b)))))) =
      '\x7b' :: (mid ++ ['\x7d']) ∧
    extract_json_payload (a ++ (('\x7b' :: (mid ++ ['\x7d'])) ++ b)) =
      '\x7b' :: (mid ++ ['\x7d']) ∧
    extract_json_payload ('\x7b' :: (mid ++ ['\x7d'])) = '\x7b' :: (mid ++ ['\x7d']) ∧
    jsonLoads (extract_json_payload
      (a ++ (fenceMarker ++ (tag ++ (w1 ++
        ((('\x7b' :: (mid ++ ['\x7d'])) ++ w2) ++ (fenceMarker ++ b))))))) =
      jsonLoads (extract_json_payload ('\x7b' :: (mid ++ ['\x7d']))) ∧
    jsonLoads (extract_json_payload (a ++ (('\x7b' :: (mid ++ ['\x7d'])) ++ b))) =
      jsonLoads (extract_json_payload ('\x7b' :: (mid ++ ['\x7d']))) := by
  have hp : ∀ c ∈ '\x7b' :: (mid ++ ['\x7d']), c ≠ '\x60' := by
    intro c hc
    rcases List.mem_cons.mp hc with h1 | h1
    · subst h1; decide
    · rcases List.mem_append.mp h1 with h2 | h2
      · exact fun he => hmid (he ▸ h2)
      · rcases List.mem_singleton.mp h2 with rfl; decide
  have h1 := payload_of_strip _ mid
    (strip_fences_fenced a tag w1 mid w2 b (fun c hc => (ha c hc).1) htag hw1 hw2 hmid)
  have h2 := payload_comment a mid b ha hb hmid
  have h3 := payload_of_strip _ mid (strip_fences_no_tick _ hp)
  exact ⟨h1, h2, h3, by rw [h1, h3], by rw [h2, h3]⟩

def c7a : Str := S "Sure, here is the JSON you asked for: "
def c7b : Str := S " Let me know if you need anything else."
def c7mid : Str := S "\"facts\": [1, 2]"

theorem c7_theorem_witness :
    extract_json_payload
      (c7a ++ (fenceMarker ++ (S "json" ++ (S "\n" ++
        ((('\x7b' :: (c7mid ++ ['\x7d'])) ++ S "\n") ++ (fenceMarker ++ c7b)))))) =
      '\x7b' :: (c7mid ++ ['\x7d']) ∧
    extract_json_payload (c7a ++ (('\x7b' :: (c7mid ++ ['\x7d'])) ++ c7b)) =
      '\x7b' :: (c7mid ++ ['\x7d']) ∧
    extract_json_payload ('\x7b' :: (c7mid ++ ['\x7d'])) = '\x7b' :: (c7mid ++ ['\x7d']) ∧
    jsonLoads (extract_json_payload
      (c7a ++ (fenceMarker ++ (S "json" ++ (S "\n" ++
        ((('\x7b' :: (c7mid ++ ['\x7d'])) ++ S "\n") ++ (fenceMarker ++ c7b))))))) =
      jsonLoads (extract_json_payload ('\x7b' :: (c7mid ++ ['\x7d']))) ∧
    jsonLoads (extract_json_payload (c7a ++ (('\x7b' :: (c7mid ++ ['\x7d'])) ++ c7b))) =
      jsonLoads (extract_json_payload ('\x7b' :: (c7mid ++ ['\x7d']))) :=
  c7_theorem c7a c7b (S "\n") (S "\n") c7mid (S "json")
    (by decide) (by decide) (by decide) (by decide) (by decide) (Or.inr rfl)

/- Canonical shapes for agenda, next focus and focus-stack entries, used to
state the guidance-string property. -/

def toSectionJ (sec : Str × List Str) : JValue :=
  JValue.obj
    [ (S "name", JValue.str sec.1),
      (S "fields", JValue.arr (sec.2.map JValue.str)) ]

def agendaJ (secs : List (Str × List Str)) : JValue :=
  JValue.arr (secs.map toSectionJ)

def sectionLineStr (sec : Str × List Str) : Str :=
  sec.1 ++ S " [" ++ joinSep (S ", ") sec.2 ++ S "]"

def agendaLineStr (secs : List (Str × List Str)) : Str :=
  S "Agenda: " ++ joinSep (S " | ") (secs.map sectionLineStr)

def nfJ (si fi : Str) : JValue :=
  JValue.obj [(S "sectionIndex", JValue.num si), (S "fieldIndex", JValue.num fi)]

def nfLineStr (si fi : Str) : Str :=
  S "Next focus index: section=" ++ si ++ S ", field=" ++ fi ++
  S ". Prioritize missing/weak fields."

def frameJ (ty tp tl : Str) : JValue :=
  JValue.obj
    [ (S "type", JValue.str ty), (S "topic", JValue.str tp),
      (S "turnsLeft", JValue.num tl) ]

def focusLineStr (ty tp tl : Str) : Str :=
  S "Active focus: " ++ ty ++ S " on " ++ tp ++ S " (turnsLeft=" ++ tl ++
  S "). After focus, return to agenda."

lemma exceptMap_strElem (gs : List Str) :
    exceptMap strElem (gs.map JValue.str) = Except.ok gs := by
  induction gs with
  | nil => rfl
  | cons g t ih =>
    show exceptMap strElem (JValue.str g :: t.map JValue.str) = Except.ok (g :: t)
    unfold exceptMap
    rw [show strElem (JValue.str g) = Except.ok g from rfl]
    rw [ih]

lemma sectionLine_toSectionJ (sec : Str × List Str) :
    sectionLine (toSectionJ sec) = Except.ok (sectionLineStr sec) := by
  obtain ⟨n, fs⟩ := sec
  show sectionLine (JValue.obj [(S "name", JValue.str n),
      (S "fields", JValue.arr (fs.map JValue.str))]) = Except.ok (sectionLineStr (n, fs))
  unfold sectionLine
  simp only []
  rw [show jgetD [(S "name", JValue.str n),
      (S "fields", JValue.arr (fs.map JValue.str))] (S "name") (JValue.str []) =
      JValue.str n from rfl]
  rw [show jgetD [(S "name", JValue.str n),
      (S "fields", JValue.arr (fs.map JValue.str))] (S "fields") (JValue.arr []) =
      JValue.arr (fs.map JValue.str) from rfl]
  simp only [pyFmt]
  rw [exceptMap_strElem fs]
  rfl

lemma exceptMap_sectionLine (secs : List (Str × List Str)) :
    exceptMap sectionLine (secs.map toSectionJ) =
      Except.ok (secs.map sectionLineStr) := by
  induction secs with
  | nil => rfl
  | cons sec t ih =>
    show exceptMap sectionLine (toSectionJ sec :: t.map toSectionJ) =
      Except.ok (sectionLineStr sec :: t.map sectionLineStr)
    unfold exceptMap
    rw [sectionLine_toSectionJ sec]
    rw [ih]

lemma truthy_agendaJ (secs : List (Str × List Str)) :
    truthy (agendaJ secs) = !secs.isEmpty := by
  cases secs <;> rfl

lemma truthy_arr_concat (rest : List JValue) (x : JValue) :
    truthy (JValue.arr (rest ++ [x])) = true := by
  cases rest <;> rfl

/-- C8: the guidance lines for drafting list, in order, the agenda line with
every section name and its comma-joined field list when the agenda is
non-empty, the next-focus line naming the sectionIndex and fieldIndex to
prioritize when nextFocus is a non-empty object, and the active-focus line
announcing the type, topic and turnsLeft of the last stack frame together
with the return-to-agenda instruction when the stack is non-empty; when all
three components are absent or empty no line at all is produced. -/
theorem c8_theorem :
    (∀ (st : List (Str × JValue)) (secs : List (Str × List Str)) (si fi : Str)
       (rest : List JValue) (ty tp tl : Str),
      jgetD st (S "agenda") (JValue.arr []) = agendaJ secs →
      jgetD st (S "nextFocus") (JValue.obj []) = nfJ si fi →
      jgetD st (S "focusStack") (JValue.arr []) =
        JValue.arr (rest ++ [frameJ ty tp tl]) →
      guidanceLines st = Except.ok
        ((if secs.isEmpty then [] else [agendaLineStr secs]) ++
          [nfLineStr si fi, focusLineStr ty tp tl])) ∧
    (∀ st : List (Str × JValue),
      jgetD st (S "agenda") (JValue.arr []) = JValue.arr [] →
      jgetD st (S "nextFocus") (JValue.obj []) = JValue.obj [] →
      jgetD st (S "focusStack") (JValue.arr []) = JValue.arr [] →
      guidanceLines st = Except.ok []) := by
  constructor
  · intro st secs si fi rest ty tp tl h1 h2 h3
    unfold guidanceLines
    rw [h1, h2, h3]
    simp only []
    rw [truthy_agendaJ, truthy_arr_concat]
    cases secs with
    | nil =>
      simp only [List.isEmpty_nil, Bool.not_true, if_false, if_true]
      rw [List.getLast?_concat]
      rfl
    | cons s t =>
      simp only [List.isEmpty_cons, Bool.not_false, if_true]
      rw [show agendaJ (s :: t) = JValue.arr ((s :: t).map toSectionJ) from rfl]
      simp only []
      rw [exceptMap_sectionLine (s :: t)]
      rw [List.getLast?_concat]
      rfl
  · intro st h1 h2 h3
    unfold guidanceLines
    rw [h1, h2, h3]
    rfl

/-- Structure snapshot for the guidance witness: two agenda sections, a
next focus at section 1 field 0, and one active focus frame. -/
def c8st : List (Str × JValue) :=
  [ (S "agenda", agendaJ
      [(S "Overview", [S "Goal", S "Scope"]), (S "Reqs", [S "R1"])]),
    (S "nextFocus", nfJ (S "1") (S "0")),
    (S "focusStack", JValue.arr [frameJ (S "examples") (S "auth") (S "2")]) ]

/-- C8 witness: the concrete structure produces exactly the three guidance
lines in order. -/
theorem c8_theorem_witness :
    guidanceLines c8st = Except.ok
      ((if ([(S "Overview", [S "Goal", S "Scope"]),
            (S "Reqs", [S "R1"])] : List (Str × List Str)).isEmpty then []
        else [agendaLineStr [(S "Overview", [S "Goal", S "Scope"]),
                             (S "Reqs", [S "R1"])]]) ++
        [nfLineStr (S "1") (S "0"), focusLineStr (S "examples") (S "auth") (S "2")]) :=
  c8_theorem.1 c8st [(S "Overview", [S "Goal", S "Scope"]), (S "Reqs", [S "R1"])]
    (S "1") (S "0") [] (S "examples") (S "auth") (S "2") (by rfl) (by rfl) (by rfl)
